import Mathlib

/-!
Verification of the application coordinator of the `tview` terminal-UI
toolkit (file `application.go`).  The Go code is shallowly embedded:
pure tree algorithms become Lean functions over an inductive primitive
tree, and the stateful coordinator becomes explicit state passing over
an `App` record together with a trace of backend/primitive calls
(`Eff`).  Machine integers of the Go code are modelled as `Int`
(coordinates, sizes) and `Nat` (identifiers); none of the embedded
arithmetic can overflow in the scenarios considered.
-/

namespace TviewSpec

/-! ## Primitive tree (hit-testing data model)

`Primitive` values relevant to `getComponentAtRecursively`
(application.go lines 601-642): a leaf widget, a `*Flex`, a `*Grid`
(both with ordered children), and a `*Pages` whose entries carry the
`Visible` flag.  Every primitive has a rectangle (`GetRect`). -/

structure Rect where
  x : Int
  y : Int
  w : Int
  h : Int
deriving DecidableEq, Repr

inductive Prim where
  | leaf  (rect : Rect)
  | flex  (rect : Rect) (items : List Prim)
  | grid  (rect : Rect) (items : List Prim)
  | pages (rect : Rect) (pgs : List (Bool × Prim))
deriving Repr

/-- `GetRect` of a primitive: the rectangle stored at its top level. -/
def Prim.rect : Prim → Rect
  | .leaf r => r
  | .flex r _ => r
  | .grid r _ => r
  | .pages r _ => r

/-- `SetRect` on a primitive: replaces the top-level rectangle. -/
def Prim.setRect : Prim → Rect → Prim
  | .leaf _, r => .leaf r
  | .flex _ items, r => .flex r items
  | .grid _ items, r => .grid r items
  | .pages _ pgs, r => .pages r pgs

/-- The rectangle test of application.go line 637:
`componentX <= x && componentY <= y && (componentX+width-1) >= x &&
(componentY+height-1) >= y`. -/
def inRect (r : Rect) (x y : Int) : Bool :=
  decide (r.x ≤ x) && decide (r.y ≤ y) &&
    decide (r.x + r.w - 1 ≥ x) && decide (r.y + r.h - 1 ≥ y)

/-- Lines 635-641: if the point is inside the primitive's rectangle the
primitive itself is returned, otherwise nil. -/
def rectTest (p : Prim) (x y : Int) : Option Prim :=
  if inRect p.rect x y then some p else none

mutual

/-- `getComponentAtRecursively` (application.go lines 601-642).  For a
`*Flex` or `*Grid` the children are tried in order and the first non-nil
result is returned; for a `*Pages` only the first page marked visible is
tried (the loop breaks after it regardless of the outcome).  In every
case, when no child produced a match, control falls through to the
rectangle test on the current primitive itself (lines 635-641). -/
def getComponentAtRecursively : Prim → Int → Int → Option Prim
  | .leaf r, x, y => rectTest (.leaf r) x y
  | .flex r items, x, y =>
    match goChildren items x y with
    | some found => some found
    | none => rectTest (.flex r items) x y
  | .grid r items, x, y =>
    match goChildren items x y with
    | some found => some found
    | none => rectTest (.grid r items) x y
  | .pages r pgs, x, y =>
    match goPages pgs x y with
    | some found => some found
    | none => rectTest (.pages r pgs) x y

/-- The `for _, child := range items` loops of the flex and grid cases
(lines 604-609 and 614-619): first non-nil recursive result wins. -/
def goChildren : List Prim → Int → Int → Option Prim
  | [], _, _ => none
  | p :: ps, x, y =>
    match getComponentAtRecursively p x y with
    | some found => some found
    | none => goChildren ps x y

/-- The `for _, page := range pages.pages` loop (lines 624-632): pages
are scanned until the first one with `Visible` set; that page alone is
recursed into and the loop breaks whatever the result. -/
def goPages : List (Bool × Prim) → Int → Int → Option Prim
  | [], _, _ => none
  | (visible, p) :: ps, x, y =>
    if visible then getComponentAtRecursively p x y else goPages ps x y

end

/-! ## Application coordinator model

The stateful part of application.go is embedded as explicit state
passing over an `App` record, together with a trace of the calls made to
the backend screen and to primitives (`Eff`).  Screens are identified by
`Nat` ids; `tcell.NewScreen()` hands out `nextScreen` and bumps it, and
its possible failure — as well as `Screen.Init()` failure — is modelled
by the oracles `newScreenFails` / `initFails`.  The focus and
input-handler side of primitives is modelled by `Nat` ids with the
oracle `focusHasHandler` saying whether `InputHandler()` is non-nil;
`Focus`/`Blur`/handler invocations appear in the trace only (so a
primitive's `Focus` never re-enters the focus machinery, matching the
hypothesis of C7).  Channel sends to the 1-slot `screenReplacement`
channel assume the slot is free (the theorems carry that as a
hypothesis); the event queue is a list where `none` is the nil
sentinel. -/

/-- Key values; only Ctrl-C is distinguished by the event loop. -/
inductive Key where
  | ctrlC
  | ch (c : Nat)
deriving DecidableEq, Repr

/-- Events serviced by the owner loop branches modelled here (key and
resize; mouse events and queued updates touch no state that the claims
mention). -/
inductive Ev where
  | key (k : Key)
  | resize
deriving DecidableEq, Repr

/-- Trace entries: backend screen calls and primitive callbacks. -/
inductive Eff where
  | newScreen (id : Nat)
  | initScreen (id : Nat)
  | finiScreen (id : Nat)
  | enableMouse
  | screenClear
  | screenShow
  | hideCursor
  | setRectRoot (x y w h : Int)
  | drawRoot
  | beforeHook
  | afterHook
  | blur (p : Nat)
  | focusCall (p : Nat)
  | invokeHandler (p : Nat) (ev : Key)
  | ranF
deriving DecidableEq, Repr

/-- The `Application` record (application.go lines 36-82) plus the
backend oracles described above. -/
structure App where
  screen : Option Nat
  nextScreen : Nat
  newScreenFails : Bool
  initFails : Nat → Bool
  mouseSupport : Bool
  root : Option Prim
  rootFullscreen : Bool
  beforeDraw : Option Bool
  afterDraw : Bool
  draw : Bool
  focus : Option Nat
  focusHasHandler : Nat → Bool
  inputCapture : Option (Key → Option Key)
  screenW : Int
  screenH : Int
  stylesTransparent : Bool
  replacement : Option (Option Nat)
  events : List (Option Ev)

/-- A quiescent application used to build concrete states. -/
def baseApp : App where
  screen := none
  nextScreen := 0
  newScreenFails := false
  initFails := fun _ => false
  mouseSupport := true
  root := none
  rootFullscreen := false
  beforeDraw := none
  afterDraw := false
  draw := false
  focus := none
  focusHasHandler := fun _ => false
  inputCapture := none
  screenW := 80
  screenH := 24
  stylesTransparent := false
  replacement := none
  events := []

/-- The tail of a draw pass once the before-handler did not report
"handled" (application.go lines 467-482): clear the buffer when the
configured background is fully transparent, draw the root, run the
after hook, then sync. -/
def drawTail (a : App) : List Eff :=
  (if a.stylesTransparent then [Eff.screenClear] else []) ++ [Eff.drawRoot] ++
    (if a.afterDraw then [Eff.afterHook] else []) ++ [Eff.screenShow]

/-- `forceDraw` (application.go lines 438-485): reads screen, root,
fullscreen flag and hooks; no-ops when screen or root is absent;
otherwise optionally resizes the root to the screen size, runs the
before hook (a `true` return skips drawing but still syncs), and then
the draw tail. -/
def forceDraw (a : App) : App × List Eff :=
  match a.screen, a.root with
  | some _, some root0 =>
    let resized :=
      if a.rootFullscreen then
        ({a with root := some (root0.setRect ⟨0, 0, a.screenW, a.screenH⟩)},
         [Eff.setRectRoot 0 0 a.screenW a.screenH])
      else (a, ([] : List Eff))
    match a.beforeDraw with
    | some true => (resized.1, resized.2 ++ [Eff.beforeHook, Eff.screenShow])
    | some false => (resized.1, resized.2 ++ Eff.beforeHook :: drawTail a)
    | none => (resized.1, resized.2 ++ drawTail a)
  | _, _ => (a, [])

/-- `Draw` (application.go lines 298-300): rate-limited mode, merely sets
the dirty flag. -/
def Draw (a : App) : App := {a with draw := true}

/-- One firing of the refresh ticker (application.go lines 188-194):
draws and clears the dirty flag only when the flag is set. -/
def tickStep (a : App) : App × List Eff :=
  if a.draw then
    let r := forceDraw a
    ({r.1 with draw := false}, r.2)
  else (a, [])

/-- `Stop` (application.go lines 282-293): idempotent; finalizes the
screen, clears the field and pushes the nil sentinel into the
replacement slot. -/
def Stop (a : App) : App × List Eff :=
  match a.screen with
  | none => (a, [])
  | some s => ({a with screen := none, replacement := some none}, [Eff.finiScreen s])

/-- The `*tcell.EventResize` branch of the event loop (application.go
lines 255-265): with a screen present, clear it and force a draw; the
dirty flag is not touched. -/
def handleResize (a : App) : App × List Eff :=
  match a.screen with
  | none => (a, [])
  | some _ =>
    let r := forceDraw a
    (r.1, Eff.screenClear :: r.2)

/-- `SetFocus` (application.go lines 567-585): under lock, blur the
previous focus if any, record the new focus, hide the backend cursor
when a screen exists; after unlocking call `Focus` on the new primitive
if non-nil. -/
def SetFocus (a : App) (p : Option Nat) : App × List Eff :=
  let blurEffs : List Eff := match a.focus with
    | some q => [Eff.blur q]
    | none => []
  let cursorEffs : List Eff := match a.screen with
    | some _ => [Eff.hideCursor]
    | none => []
  let focusEffs : List Eff := match p with
    | some q => [Eff.focusCall q]
    | none => []
  ({a with focus := p}, blurEffs ++ cursorEffs ++ focusEffs)

/-- Occurrences of `Eff.blur p` in a trace. -/
def countBlur (p : Nat) : List Eff → Nat
  | [] => 0
  | Eff.blur q :: es => (if q = p then 1 else 0) + countBlur p es
  | _ :: es => countBlur p es

/-- `Suspend` (application.go lines 321-353): with no screen, returns
false without side effects.  Otherwise it finalizes the current screen,
runs `f` (whose failure, like a `tcell.NewScreen` failure, panics —
result `none`), constructs a fresh screen, assigns it directly to the
`Screen` field, and sends the *previous* screen object into the
replacement slot; `some true` models the normal return. -/
def Suspend (a : App) (fErr : Bool) : App × Option Bool × List Eff :=
  match a.screen with
  | none => (a, some false, [])
  | some old =>
    if fErr then (a, none, [Eff.finiScreen old, Eff.ranF])
    else if a.newScreenFails then (a, none, [Eff.finiScreen old, Eff.ranF])
    else
      ({a with screen := some a.nextScreen, nextScreen := a.nextScreen + 1,
               replacement := some (some old)},
       some true,
       [Eff.finiScreen old, Eff.ranF, Eff.newScreen a.nextScreen])

/-- The replacement-slot handling of the ingestion goroutine
(application.go lines 163-181), reached after `PollEvent` returned nil
because the screen was finalized: a nil replacement queues the nil
sentinel and the goroutine returns; a screen value is installed into the
`Screen` field, initialized (an init failure panics), and a redraw is
requested. -/
def ingestOnPollNil (a : App) : App × List Eff :=
  match a.replacement with
  | none => (a, [])
  | some none => ({a with replacement := none, events := a.events ++ [none]}, [])
  | some (some s) =>
    if a.initFails s then
      ({a with replacement := none, screen := some s}, [Eff.initScreen s])
    else
      ({a with replacement := none, screen := some s, draw := true},
       [Eff.initScreen s])

/-- Startup failures surfaced by `Run`. -/
inductive StartErr where
  | newScreenFailed
  | initFailed
deriving DecidableEq, Repr

/-- The startup section of `Run` (application.go lines 100-123): when no
screen was provided, construct one (`Screen, err = tcell.NewScreen()`
leaves the field nil on failure), initialize it (failure returns the
error with the constructed screen still stored in the field), and
enable mouse support if configured.  `Except.ok ()` means startup
succeeded and `Run` goes on to the initial draw and the event loop. -/
def runStartup (a : App) : App × Except StartErr Unit × List Eff :=
  match a.screen with
  | some _ => (a, Except.ok (), [])
  | none =>
    if a.newScreenFails then (a, Except.error StartErr.newScreenFailed, [])
    else
      let id := a.nextScreen
      let a1 := {a with screen := some id, nextScreen := id + 1}
      if a.initFails id then
        (a1, Except.error StartErr.initFailed, [Eff.newScreen id, Eff.initScreen id])
      else if a.mouseSupport then
        (a1, Except.ok (), [Eff.newScreen id, Eff.initScreen id, Eff.enableMouse])
      else
        (a1, Except.ok (), [Eff.newScreen id, Eff.initScreen id])

/-- The part of the key branch after input capture (application.go lines
221-235): Ctrl-C calls `Stop`, then the event — the same one — is
forwarded to the focused primitive's input handler if there is one, and
a draw is requested. -/
def keyCore (a : App) (ev : Key) (p : Option Nat) : App × List Eff :=
  let r1 := if ev = Key.ctrlC then Stop a else (a, [])
  match p with
  | some pid =>
    if a.focusHasHandler pid then
      ({r1.1 with draw := true}, r1.2 ++ [Eff.invokeHandler pid ev])
    else r1
  | none => r1

/-- The `*tcell.EventKey` branch of the event loop (application.go lines
207-235): read focus and capture under lock; a capture returning nil
suppresses the event but requests a draw; otherwise the (possibly
replaced) event goes through `keyCore`. -/
def handleKeyEvent (a : App) (ev : Key) : App × List Eff :=
  match a.inputCapture with
  | some cap =>
    match cap ev with
    | none => ({a with draw := true}, [])
    | some ev2 => keyCore a ev2 a.focus
  | none => keyCore a ev a.focus

/-- One iteration of the owner event loop on the event queue
(application.go lines 198-272); the returned Bool is true when the nil
sentinel broke the loop (the Running to Stopping transition). -/
def processEvent (a : App) (ev : Option Ev) : App × List Eff × Bool :=
  match ev with
  | none => (a, [], true)
  | some (.key k) =>
    let r := handleKeyEvent a k
    (r.1, r.2, false)
  | some .resize =>
    let r := handleResize a
    (r.1, r.2, false)

/-- The epilogue of `Run` after the loop breaks (application.go lines
274-278): wait for the goroutines, clear the screen field, return nil. -/
def finishRun (a : App) : App × Except StartErr Unit :=
  ({a with screen := none}, Except.ok ())

/-! ## Concrete states and trees used by the claims -/

/-- A page stack whose own rectangle contains the origin while its single
visible page does not. -/
def pagesTree : Prim := .pages ⟨0, 0, 10, 10⟩ [(true, .leaf ⟨5, 5, 1, 1⟩)]

/-- A flex whose first child is an empty container covering (5,5) while the
second child is the only leaf containing (5,5). -/
def shadowTree : Prim :=
  .flex ⟨0, 0, 20, 20⟩ [.flex ⟨0, 0, 10, 10⟩ [], .leaf ⟨5, 5, 1, 1⟩]

/-- An application with an initialized screen (id 0) about to be
suspended. -/
def suspendApp : App := {baseApp with screen := some 0, nextScreen := 1}

/-- An application whose backend will fail `Init()` on the screen about
to be constructed (id 0). -/
def initFailApp : App := {baseApp with initFails := fun n => n == 0}

/-- An application whose backend screen constructor fails. -/
def ctorFailApp : App := {baseApp with newScreenFails := true}

/-- A dirty application (Draw was called) with a screen and a root, about
to service a resize event. -/
def dirtyResizeApp : App :=
  {baseApp with draw := true, screen := some 0, root := some (.leaf ⟨0, 0, 10, 10⟩)}

/-- An application already focused on primitive 5. -/
def refocusApp : App := {baseApp with focus := some 5}

/-- An application in the running state with screen id 0. -/
def runningApp : App := {baseApp with screen := some 0}

/-- An application with a focused, handler-bearing primitive 7 and
screen id 0. -/
def ctrlCApp : App :=
  {baseApp with screen := some 0, focus := some 7, focusHasHandler := fun _ => true}

/-! ## Hit-test lemmas -/

theorem rectTest_some {p q : Prim} {x y : Int} (h : rectTest p x y = some q) :
    q = p ∧ inRect p.rect x y = true := by
  unfold rectTest at h
  split at h
  · exact ⟨(Option.some.inj h).symm, by assumption⟩
  · cases h

theorem goChildren_found {items : List Prim} {x y : Int} {q : Prim}
    (h : goChildren items x y = some q) :
    ∃ p ∈ items, getComponentAtRecursively p x y = some q := by
  induction items with
  | nil => cases h
  | cons p ps ih =>
    rw [goChildren] at h
    cases hp : getComponentAtRecursively p x y with
    | some found =>
      rw [hp] at h
      exact ⟨p, List.mem_cons_self p ps, hp.trans h⟩
    | none =>
      rw [hp] at h
      obtain ⟨p', hmem, hp'⟩ := ih h
      exact ⟨p', List.mem_cons_of_mem p hmem, hp'⟩

theorem goChildren_append {pre : List Prim} {c : Prim} {post : List Prim}
    {x y : Int} {q : Prim}
    (hpre : ∀ p ∈ pre, getComponentAtRecursively p x y = none)
    (hc : getComponentAtRecursively c x y = some q) :
    goChildren (pre ++ c :: post) x y = some q := by
  induction pre with
  | nil => simp [goChildren, hc]
  | cons p ps ih =>
    have hp : getComponentAtRecursively p x y = none :=
      hpre p (List.mem_cons_self p ps)
    rw [List.cons_append, goChildren, hp]
    exact ih fun p' hmem => hpre p' (List.mem_cons_of_mem p hmem)

theorem goPages_found {pgs : List (Bool × Prim)} {x y : Int} {q : Prim}
    (h : goPages pgs x y = some q) :
    ∃ pre v post, pgs = pre ++ (true, v) :: post ∧
      (∀ bp ∈ pre, bp.1 = false) ∧
      getComponentAtRecursively v x y = some q := by
  induction pgs with
  | nil => cases h
  | cons bp ps ih =>
    obtain ⟨b, p⟩ := bp
    rw [goPages] at h
    cases b with
    | true =>
      refine ⟨[], p, ps, by simp, by simp, ?_⟩
      simpa using h
    | false =>
      obtain ⟨pre, v, post, hdec, hhid, hv⟩ := ih (by simpa using h)
      refine ⟨(false, p) :: pre, v, post, by simp [hdec], ?_, hv⟩
      intro bp hmem
      rcases List.mem_cons.mp hmem with h' | h'
      · simp [h']
      · exact hhid bp h'

/-- Every primitive the hit-test returns has the query point inside its
rectangle (inclusive bounds). -/
theorem found_inRect :
    ∀ (p : Prim) (x y : Int) (q : Prim),
      getComponentAtRecursively p x y = some q → inRect q.rect x y = true := by
  have main :=
    getComponentAtRecursively.induct
      (fun p x y => ∀ q, getComponentAtRecursively p x y = some q →
        inRect q.rect x y = true)
      (fun pgs x y => ∀ q, goPages pgs x y = some q →
        inRect q.rect x y = true)
      (fun items x y => ∀ q, goChildren items x y = some q →
        inRect q.rect x y = true)
  intro p x y q
  refine main ?_ ?_ ?_ ?_ ?_ ?_ ?_ ?_ ?_ ?_ ?_ ?_ ?_ p x y q
  · intro r x y q h
    rw [getComponentAtRecursively] at h
    obtain ⟨rfl, hin⟩ := rectTest_some h
    exact hin
  · intro r items x y found hg ih q h
    rw [getComponentAtRecursively, hg] at h
    exact (Option.some.inj h) ▸ ih found hg
  · intro r items x y hg ih q h
    rw [getComponentAtRecursively, hg] at h
    obtain ⟨rfl, hin⟩ := rectTest_some h
    exact hin
  · intro r items x y found hg ih q h
    rw [getComponentAtRecursively, hg] at h
    exact (Option.some.inj h) ▸ ih found hg
  · intro r items x y hg ih q h
    rw [getComponentAtRecursively, hg] at h
    obtain ⟨rfl, hin⟩ := rectTest_some h
    exact hin
  · intro r pgs x y found hg ih q h
    rw [getComponentAtRecursively, hg] at h
    exact (Option.some.inj h) ▸ ih found hg
  · intro r pgs x y hg ih q h
    rw [getComponentAtRecursively, hg] at h
    obtain ⟨rfl, hin⟩ := rectTest_some h
    exact hin
  · intro x y q h
    cases h
  · intro p ps x y found hp ih q h
    rw [goChildren, hp] at h
    exact (Option.some.inj h) ▸ ih found hp
  · intro p ps x y hp ih₁ ih₂ q h
    rw [goChildren, hp] at h
    exact ih₂ q h
  · intro x y q h
    cases h
  · intro p ps x y ih q h
    rw [goPages] at h
    exact ih q (by simpa using h)
  · intro visible p ps x y hvis ih q h
    rw [goPages] at h
    have : visible = false := by
      cases visible
      · rfl
      · exact absurd rfl hvis
    subst this
    exact ih q (by simpa using h)

/-! ## Hit-test claims -/

/-- C2, counterexample: the claim says `componentAt` on a page stack "only
ever returns a match lying inside that visible page".  On `pagesTree` at
(0,0), the visible page (a leaf at (5,5,1,1)) misses, but the code falls
through to the rectangle test on the `Pages` container itself
(application.go lines 635-641) and returns the page stack — a match that
does not lie inside the visible page (the visible page is a leaf, so the
only component inside it is the leaf itself, and its own hit-test at (0,0)
is nil). -/
theorem claim2_counterexample :
    getComponentAtRecursively pagesTree 0 0 = some pagesTree ∧
    pagesTree ≠ Prim.leaf ⟨5, 5, 1, 1⟩ ∧
    getComponentAtRecursively (.leaf ⟨5, 5, 1, 1⟩) 0 0 = none :=
  ⟨rfl, nofun, rfl⟩

/-- C2, amended: the hit-test on a page stack recurses only into the first
page marked visible and stops regardless of match; any returned match is
therefore either a component found inside that visible page, or — when that
recursion misses but the point lies in the page stack's own rectangle — the
page-stack container itself.  In particular no match ever comes from a
hidden page. -/
theorem claim2_pages_hit_test :
    ∀ (r : Rect) (pgs : List (Bool × Prim)) (x y : Int) (q : Prim),
      getComponentAtRecursively (.pages r pgs) x y = some q →
      q = .pages r pgs ∨
        ∃ pre v post, pgs = pre ++ (true, v) :: post ∧
          (∀ bp ∈ pre, bp.1 = false) ∧
          getComponentAtRecursively v x y = some q := by
  intro r pgs x y q h
  rw [getComponentAtRecursively] at h
  cases hg : goPages pgs x y with
  | some found =>
    rw [hg] at h
    exact Or.inr ((Option.some.inj h) ▸ goPages_found hg)
  | none =>
    rw [hg] at h
    exact Or.inl (rectTest_some h).1

/-- C2, witness: the amended theorem applied to a page stack whose visible
page contains the query point. -/
theorem claim2_witness :
    Prim.leaf ⟨0, 0, 10, 10⟩ =
        Prim.pages ⟨0, 0, 10, 10⟩ [(true, .leaf ⟨0, 0, 10, 10⟩)] ∨
      ∃ pre v post,
        [((true : Bool), Prim.leaf ⟨0, 0, 10, 10⟩)] = pre ++ (true, v) :: post ∧
          (∀ bp ∈ pre, bp.1 = false) ∧
          getComponentAtRecursively v 3 3 = some (Prim.leaf ⟨0, 0, 10, 10⟩) :=
  claim2_pages_hit_test ⟨0, 0, 10, 10⟩ [(true, .leaf ⟨0, 0, 10, 10⟩)] 3 3
    (Prim.leaf ⟨0, 0, 10, 10⟩) rfl

/-- C5, counterexample: the claim says that for a coordinate inside exactly
one leaf primitive's rectangle `componentAt` returns that leaf, and that for
coordinates inside no leaf it returns none.  At (5,5) in `shadowTree` the
only leaf containing the point is the leaf at (5,5,1,1), yet the hit-test
returns the empty flex container — because the rectangle test of
application.go lines 635-641 is applied to containers as well, not just to
leaves.  The last conjunct shows the same fall-through on a tree with no
leaf at all: the result is not none. -/
theorem claim5_counterexample :
    inRect ⟨5, 5, 1, 1⟩ 5 5 = true ∧
    getComponentAtRecursively shadowTree 5 5 = some (.flex ⟨0, 0, 10, 10⟩ []) ∧
    Prim.flex ⟨0, 0, 10, 10⟩ [] ≠ Prim.leaf ⟨5, 5, 1, 1⟩ ∧
    getComponentAtRecursively (.flex ⟨0, 0, 10, 10⟩ []) 5 5 ≠ none :=
  ⟨by decide, rfl, nofun, nofun⟩

/-- C5, amended: the hit-test matches a leaf with rectangle (x0,y0,w,h) iff
x0 ≤ x ≤ x0+w-1 and y0 ≤ y ≤ y0+h-1 (inclusive bounds).  However, the same
rectangle test is also applied to containers whose children all missed, so a
coordinate inside no leaf may still yield a container; what holds generally
is that every primitive the search returns — leaf or container — has the
coordinate inside its rectangle. -/
theorem claim5_leaf_inclusive_bounds :
    (∀ (r : Rect) (x y : Int),
        getComponentAtRecursively (.leaf r) x y = some (.leaf r) ↔
          r.x ≤ x ∧ x ≤ r.x + r.w - 1 ∧ r.y ≤ y ∧ y ≤ r.y + r.h - 1) ∧
    (∀ (p : Prim) (x y : Int) (q : Prim),
        getComponentAtRecursively p x y = some q → inRect q.rect x y = true) := by
  constructor
  · intro r x y
    constructor
    · intro h
      rw [getComponentAtRecursively] at h
      have hin := (rectTest_some h).2
      simp only [inRect, Prim.rect, Bool.and_eq_true, decide_eq_true_eq] at hin
      omega
    · intro h
      have hin : inRect (Prim.leaf r).rect x y = true := by
        simp only [inRect, Prim.rect, Bool.and_eq_true, decide_eq_true_eq]
        omega
      rw [getComponentAtRecursively, rectTest, hin]
      simp
  · exact found_inRect

/-- C5, witness: both halves of the amended theorem evaluated on a concrete
leaf and point. -/
theorem claim5_witness :
    (getComponentAtRecursively (.leaf ⟨0, 0, 10, 10⟩) 3 3 =
        some (.leaf ⟨0, 0, 10, 10⟩) ↔
      (0 : Int) ≤ 3 ∧ (3 : Int) ≤ 0 + 10 - 1 ∧
        (0 : Int) ≤ 3 ∧ (3 : Int) ≤ 0 + 10 - 1) ∧
    inRect (Prim.leaf ⟨0, 0, 10, 10⟩).rect 3 3 = true :=
  ⟨claim5_leaf_inclusive_bounds.1 ⟨0, 0, 10, 10⟩ 3 3,
   claim5_leaf_inclusive_bounds.2 (.leaf ⟨0, 0, 10, 10⟩) 3 3
     (.leaf ⟨0, 0, 10, 10⟩) rfl⟩

/-- C6: for a flex or grid container, the hit-test recurses into the
children in order and returns the first non-nil match: if every child
before `c` misses and `c` yields a match, the container yields exactly
that match, so on overlap the earliest child in child order wins. -/
theorem claim6_first_child_wins :
    ∀ (r : Rect) (pre : List Prim) (c : Prim) (post : List Prim)
      (x y : Int) (q : Prim),
      (∀ p ∈ pre, getComponentAtRecursively p x y = none) →
      getComponentAtRecursively c x y = some q →
      getComponentAtRecursively (.flex r (pre ++ c :: post)) x y = some q ∧
        getComponentAtRecursively (.grid r (pre ++ c :: post)) x y = some q := by
  intro r pre c post x y q hpre hc
  have hgo := @goChildren_append pre c post x y q hpre hc
  constructor <;> rw [getComponentAtRecursively, hgo]

/-- C6, witness: two overlapping children (the second and third both contain
(5,5)); the earliest of them is returned, for flex and grid alike. -/
theorem claim6_witness :
    getComponentAtRecursively
        (.flex ⟨0, 0, 30, 30⟩
          [.leaf ⟨20, 20, 1, 1⟩, .leaf ⟨0, 0, 10, 10⟩, .leaf ⟨3, 3, 10, 10⟩])
        5 5 = some (.leaf ⟨0, 0, 10, 10⟩) ∧
    getComponentAtRecursively
        (.grid ⟨0, 0, 30, 30⟩
          [.leaf ⟨20, 20, 1, 1⟩, .leaf ⟨0, 0, 10, 10⟩, .leaf ⟨3, 3, 10, 10⟩])
        5 5 = some (.leaf ⟨0, 0, 10, 10⟩) :=
  claim6_first_child_wins ⟨0, 0, 30, 30⟩ [.leaf ⟨20, 20, 1, 1⟩]
    (.leaf ⟨0, 0, 10, 10⟩) [.leaf ⟨3, 3, 10, 10⟩] 5 5 (.leaf ⟨0, 0, 10, 10⟩)
    (by
      intro p hp
      rw [List.mem_singleton] at hp
      subst hp
      rfl)
    rfl

/-! ## Coordinator claims -/

/-- C1 (code bug): `Suspend(f)` with `f` returning nil does finalize the
current screen, run `f`, construct a fresh screen (id 1), install it and
return true — but the previous screen (id 0) delivered into the
replacement slot is *not* a mere signal token: the ingestion goroutine
(application.go lines 163-181) assigns whatever it receives to the
`Screen` field and re-initializes it, so the old screen ends up active
again and the freshly constructed screen is discarded, contradicting
both the claim and the `Screen` field's own documentation (lines 39-41:
the replacement channel is the way "to set a new screen"). -/
theorem claim1_suspend_bug :
    (Suspend suspendApp false).2.1 = some true ∧
    (Suspend suspendApp false).2.2 =
      [Eff.finiScreen 0, Eff.ranF, Eff.newScreen 1] ∧
    (Suspend suspendApp false).1.screen = some 1 ∧
    (Suspend suspendApp false).1.replacement = some (some 0) ∧
    (ingestOnPollNil (Suspend suspendApp false).1).1.screen = some 0 ∧
    (ingestOnPollNil (Suspend suspendApp false).1).2 = [Eff.initScreen 0] :=
  ⟨rfl, rfl, rfl, rfl, rfl, rfl⟩

/-- C3, counterexample: when `Screen.Init()` fails during startup, `Run`
does return the error and the loop does not start, but the constructed
screen is *not* unset: it remains stored in the screen field
(application.go line 109 assigns the field before line 114 checks
`Init`), so partial state is retained. -/
theorem claim3_counterexample :
    (runStartup initFailApp).2.1 = Except.error StartErr.initFailed ∧
    (runStartup initFailApp).1.screen = some 0 :=
  ⟨rfl, rfl⟩

/-- C3, amended: a startup failure is returned as an error from `Run`
and the event loop does not start; on construction failure no state is
retained (the screen field stays unset), while on initialization failure
the constructed — uninitialized — screen remains stored in the screen
field. -/
theorem claim3_startup_failure :
    ∀ a : App, a.screen = none →
      (a.newScreenFails = true →
        runStartup a = (a, Except.error StartErr.newScreenFailed, [])) ∧
      (a.newScreenFails = false → a.initFails a.nextScreen = true →
        runStartup a =
          ({a with screen := some a.nextScreen, nextScreen := a.nextScreen + 1},
           Except.error StartErr.initFailed,
           [Eff.newScreen a.nextScreen, Eff.initScreen a.nextScreen])) := by
  intro a hs
  constructor
  · intro h
    simp [runStartup, hs, h]
  · intro h1 h2
    simp [runStartup, hs, h1, h2]

/-- C3, witness: the amended theorem evaluated on both failure modes. -/
theorem claim3_witness :
    runStartup ctorFailApp =
      (ctorFailApp, Except.error StartErr.newScreenFailed, []) ∧
    runStartup initFailApp =
      ({initFailApp with screen := some 0, nextScreen := 1},
       Except.error StartErr.initFailed,
       [Eff.newScreen 0, Eff.initScreen 0]) :=
  ⟨(claim3_startup_failure ctorFailApp rfl).1 rfl,
   (claim3_startup_failure initFailApp rfl).2 rfl rfl⟩

/-- C4, counterexample: the claim says the dirty flag is cleared after
*every* actual draw pass.  A resize event forces an actual draw pass
(application.go lines 255-265) without touching the flag: afterwards the
flag is still set, so the next tick will redraw although `Draw()` was
not called again.  Only the ticker's own pass (lines 190-193) clears the
flag. -/
theorem claim4_counterexample :
    Eff.drawRoot ∈ (handleResize dirtyResizeApp).2 ∧
    (handleResize dirtyResizeApp).1.draw = true :=
  ⟨by decide, rfl⟩

/-- C4, amended: in rate-limited mode `Draw()` only sets the dirty flag
(no draw pass, no other state change); the periodic ticker performs an
actual draw pass only when the flag is set and clears the flag after
that pass — draw passes triggered by other paths (initial draw, resize,
`ForceDraw`) leave the flag unchanged. -/
theorem claim4_rate_limited_draw :
    ∀ a : App,
      Draw a = {a with draw := true} ∧
      (a.draw = false → tickStep a = (a, [])) ∧
      (a.draw = true →
        tickStep a = ({(forceDraw a).1 with draw := false}, (forceDraw a).2)) := by
  intro a
  refine ⟨rfl, ?_, ?_⟩
  · intro h
    simp [tickStep, h]
  · intro h
    simp [tickStep, h]

/-- C4, witness: the amended theorem evaluated on a clean and on a dirty
application. -/
theorem claim4_witness :
    Draw baseApp = {baseApp with draw := true} ∧
    tickStep baseApp = (baseApp, []) ∧
    tickStep {baseApp with draw := true} =
      ({(forceDraw {baseApp with draw := true}).1 with draw := false},
       (forceDraw {baseApp with draw := true}).2) :=
  ⟨(claim4_rate_limited_draw baseApp).1,
   (claim4_rate_limited_draw baseApp).2.1 rfl,
   (claim4_rate_limited_draw {baseApp with draw := true}).2.2 rfl⟩

/-- C7, counterexample: when `p` is already the focused primitive,
`setFocus(p)` blurs it (as the previous focus, application.go lines
569-571) and `setFocus(nil)` blurs it again, so `Blur()` runs on `p`
twice, not exactly once as claimed. -/
theorem claim7_counterexample :
    countBlur 5 ((SetFocus refocusApp (some 5)).2 ++
      (SetFocus (SetFocus refocusApp (some 5)).1 none).2) = 2 :=
  rfl

/-- C7, amended: for a primitive `p` that is not already the focus (and
whose `Focus` does not re-enter the focus callback, which the embedding
fixes by construction), `setFocus(p)` followed by `setFocus(nil)` calls
`Blur()` on `p` exactly once and leaves the focus as none; `setFocus`
records the new focus, blurs the previous focus if any, and hides the
backend cursor whenever a screen is present. -/
theorem claim7_focus_blur :
    ∀ (a : App) (p : Nat), a.focus ≠ some p →
      countBlur p ((SetFocus a (some p)).2 ++
        (SetFocus (SetFocus a (some p)).1 none).2) = 1 ∧
      (SetFocus a (some p)).1.focus = some p ∧
      (SetFocus (SetFocus a (some p)).1 none).1.focus = none ∧
      (∀ q, a.focus = some q → Eff.blur q ∈ (SetFocus a (some p)).2) ∧
      (a.screen.isSome = true → Eff.hideCursor ∈ (SetFocus a (some p)).2) := by
  intro a p hne
  cases hf : a.focus with
  | none =>
    cases hs : a.screen <;> simp [SetFocus, countBlur, hf, hs]
  | some q =>
    have hqp : q ≠ p := fun h => hne (by rw [hf, h])
    cases hs : a.screen <;> simp [SetFocus, countBlur, hf, hs, hqp]

/-- C7, witness: the amended theorem on a quiescent application and
primitive 7. -/
theorem claim7_witness :
    countBlur 7 ((SetFocus baseApp (some 7)).2 ++
      (SetFocus (SetFocus baseApp (some 7)).1 none).2) = 1 ∧
    (SetFocus baseApp (some 7)).1.focus = some 7 ∧
    (SetFocus (SetFocus baseApp (some 7)).1 none).1.focus = none ∧
    (∀ q, baseApp.focus = some q → Eff.blur q ∈ (SetFocus baseApp (some 7)).2) ∧
    (baseApp.screen.isSome = true →
      Eff.hideCursor ∈ (SetFocus baseApp (some 7)).2) :=
  claim7_focus_blur baseApp 7 (by decide)

/-- C8: with no input capture installed and an initialized screen,
processing a Ctrl-C key event finalizes the screen and clears the field
(`Stop`), after which the ingestion goroutine receives the nil sentinel
from the replacement slot and queues it; the owner loop breaks on the
sentinel (the Running to Stopping transition) and `Run` finishes,
returning without error. -/
theorem claim8_ctrlC_stops :
    ∀ (a : App) (s : Nat),
      a.screen = some s → a.inputCapture = none → a.replacement = none →
      (handleKeyEvent a Key.ctrlC).1.screen = none ∧
      Eff.finiScreen s ∈ (handleKeyEvent a Key.ctrlC).2 ∧
      (ingestOnPollNil (handleKeyEvent a Key.ctrlC).1).1.events =
        a.events ++ [none] ∧
      processEvent (ingestOnPollNil (handleKeyEvent a Key.ctrlC).1).1 none =
        ((ingestOnPollNil (handleKeyEvent a Key.ctrlC).1).1, [], true) ∧
      (finishRun (ingestOnPollNil (handleKeyEvent a Key.ctrlC).1).1).2 =
        Except.ok () := by
  intro a s hs hcap hrep
  cases hf : a.focus with
  | none =>
    simp [handleKeyEvent, keyCore, Stop, ingestOnPollNil, processEvent,
      finishRun, hs, hcap, hf]
  | some pid =>
    cases hh : a.focusHasHandler pid <;>
      simp [handleKeyEvent, keyCore, Stop, ingestOnPollNil, processEvent,
        finishRun, hs, hcap, hf, hh]

/-- C8, witness: the stopping pipeline evaluated on `runningApp`. -/
theorem claim8_witness :
    (handleKeyEvent runningApp Key.ctrlC).1.screen = none ∧
    Eff.finiScreen 0 ∈ (handleKeyEvent runningApp Key.ctrlC).2 ∧
    (ingestOnPollNil (handleKeyEvent runningApp Key.ctrlC).1).1.events =
      runningApp.events ++ [none] ∧
    processEvent (ingestOnPollNil (handleKeyEvent runningApp Key.ctrlC).1).1
        none =
      ((ingestOnPollNil (handleKeyEvent runningApp Key.ctrlC).1).1, [], true) ∧
    (finishRun (ingestOnPollNil (handleKeyEvent runningApp Key.ctrlC).1).1).2 =
      Except.ok () :=
  claim8_ctrlC_stops runningApp 0 rfl rfl rfl

/-- C9: a draw pass with the screen or the root absent is a no-op: the
state is returned unchanged and no backend or primitive call is made
(in the embedding the root is matched on before any use, so it is never
dereferenced). -/
theorem claim9_forceDraw_noop :
    ∀ a : App, a.screen = none ∨ a.root = none → forceDraw a = (a, []) := by
  intro a h
  rcases h with h | h
  · cases hr : a.root <;> simp [forceDraw, h, hr]
  · cases hs : a.screen <;> simp [forceDraw, h, hs]

/-- C9, witness: the no-op draw pass on the quiescent application. -/
theorem claim9_witness : forceDraw baseApp = (baseApp, []) :=
  claim9_forceDraw_noop baseApp (Or.inl rfl)

/-- C10: with no input capture, a focused primitive whose `InputHandler`
is non-nil, and an initialized screen, processing Ctrl-C both stops the
application (screen finalized and cleared) and still forwards the same
Ctrl-C event to the focused primitive's handler, then requests a draw
(application.go lines 221-235: the `Stop` call does not suppress the
forwarding below it). -/
theorem claim10_ctrlC_still_forwarded :
    ∀ (a : App) (p s : Nat),
      a.inputCapture = none → a.focus = some p → a.focusHasHandler p = true →
      a.screen = some s →
      (handleKeyEvent a Key.ctrlC).2 =
        [Eff.finiScreen s, Eff.invokeHandler p Key.ctrlC] ∧
      (handleKeyEvent a Key.ctrlC).1.draw = true ∧
      (handleKeyEvent a Key.ctrlC).1.screen = none := by
  intro a p s hcap hf hh hs
  simp [handleKeyEvent, keyCore, Stop, hcap, hf, hh, hs]

/-- C10, witness: the forwarding behaviour evaluated on `ctrlCApp`. -/
theorem claim10_witness :
    (handleKeyEvent ctrlCApp Key.ctrlC).2 =
      [Eff.finiScreen 0, Eff.invokeHandler 7 Key.ctrlC] ∧
    (handleKeyEvent ctrlCApp Key.ctrlC).1.draw = true ∧
    (handleKeyEvent ctrlCApp Key.ctrlC).1.screen = none :=
  claim10_ctrlC_still_forwarded ctrlCApp 7 0 rfl rfl rfl rfl

end TviewSpec
